import Mathlib

/-!
Verification of the process-management syscall layer of a teaching OS kernel
(`src/os/src/syscall/process.rs`).  The syscall functions below are shallow
embeddings of the Rust source; `usize` is modelled as `Nat` and `isize` as
`Int`.  Kernel facilities that the syscall layer calls but whose bodies are
not part of the given source (address translation, the area table of a
`MemorySet`, the `fork`/`exec`/`spawn` methods of a task control block) are
modelled from the design document and carry a doc comment saying so.
-/

namespace RCore

/-- Page size of the kernel, 4 KiB. -/
def PAGE_SIZE : Nat := 4096

/-- Rust `VirtAddr::floor`: virtual page number containing a virtual address. -/
def vaFloor (va : Nat) : Nat := va / PAGE_SIZE

/-- Rust `VirtAddr::ceil`: first virtual page number at or after a virtual address. -/
def vaCeil (va : Nat) : Nat := (va + PAGE_SIZE - 1) / PAGE_SIZE

/-- Rust `VirtAddr::aligned`: page alignment test. -/
def vaAligned (va : Nat) : Bool := va % PAGE_SIZE == 0

/-- A page table: association list from virtual page number to physical page
number.  Pages absent from the list are unmapped. -/
abbrev PageTable : Type := List (Nat × Nat)

/-- Look up the physical page number of a virtual page number. -/
def ptLookup (pt : PageTable) (vpn : Nat) : Option Nat :=
  (pt.find? (fun e => e.1 == vpn)).map (fun e => e.2)

/-- Modelled from the spec: `Translate(virtual_addr, owner)` "walks the
owner's page table; returns the corresponding physical address, or a defined
unmapped result".  The byte offset within the page is preserved. -/
def translate (pt : PageTable) (va : Nat) : Option Nat :=
  (ptLookup pt (va / PAGE_SIZE)).map (fun ppn => ppn * PAGE_SIZE + va % PAGE_SIZE)

/-- Physical memory, recorded as a journal of word writes at byte addresses.
The head of the list is the most recent write. -/
abbrev Mem : Type := List (Nat × Int)

/-- Write one machine word at a physical byte address. -/
def writeMem (mem : Mem) (pa : Nat) (v : Int) : Mem := (pa, v) :: mem

/-- Read the most recently written word at a physical byte address. -/
def readMem (mem : Mem) (pa : Nat) : Option Int :=
  (mem.find? (fun e => e.1 == pa)).map (fun e => e.2)

/-- Task status, as in the kernel's `TaskStatus`. -/
inductive TaskStatus where
  | Ready
  | Running
  | Blocked
  | Zombie
deriving DecidableEq, Repr

/-- Numeric code used when a status value is stored into user memory. -/
def statusCode : TaskStatus → Nat
  | .Ready => 0
  | .Running => 1
  | .Blocked => 2
  | .Zombie => 3

/-! ## sys_get_time and sys_task_info

`find_phys_addr_user_space` (called on the destination virtual address in the
source) is the translation of the base address through the calling task's page
table; its body is not under `src/`, so it is the spec's `Translate`.  What is
visible in the source is decisive for the claims: the result of translating
the *base* address alone is cast to a struct pointer and the whole struct is
written through it (`*(phyaddr.0 as *mut TimeVal) = ...`), so every field
lands at `base physical address + field offset` in physically contiguous
memory. -/

/-- Modelled from the spec: `VirtAddr::find_phys_addr_user_space` is not under
`src/`; per the spec it resolves a virtual address of the current task through
its page table, or reports unmapped. -/
def find_phys_addr_user_space (pt : PageTable) (va : Nat) : Option Nat :=
  translate pt va

/-- Function `sys_get_time` from the source: translate the base address of the
user-supplied `TimeVal` pointer `ts`; on failure return `-1` without writing;
otherwise write `sec = us / 1000000` at the translated base and
`usec = us % 1000000` at the translated base plus 8 (the `repr(C)` offset of
`usec` inside `TimeVal`), and return 0.  `us` is the timer's microsecond
count, an input to the model. -/
def sys_get_time (pt : PageTable) (mem : Mem) (ts : Nat) (us : Nat) : Int × Mem :=
  match find_phys_addr_user_space pt ts with
  | none => (-1, mem)
  | some pa =>
      (0, writeMem (writeMem mem pa (Int.ofNat (us / 1000000))) (pa + 8)
            (Int.ofNat (us % 1000000)))

/-- Number of syscall counters in a `TaskInfo` (`MAX_SYSCALL_NUM`). -/
def MAX_SYSCALL_NUM : Nat := 500

/-- The contiguous struct write performed by `sys_task_info` once the base
address has been translated: status, then the counter table (one 4-byte slot
per counter starting at offset 8), then the running time after the table.
Field offsets follow declaration order; only contiguity from the single
translated base matters for the claims. -/
def writeTaskInfo (mem : Mem) (pa : Nat) (st : TaskStatus) (times : List Nat)
    (time : Nat) : Mem :=
  let memStatus := writeMem mem pa (Int.ofNat (statusCode st))
  let memTimes :=
    (List.range times.length).foldl
      (fun m i => writeMem m (pa + 8 + 4 * i) (Int.ofNat (times.getD i 0))) memStatus
  writeMem memTimes (pa + 8 + 4 * MAX_SYSCALL_NUM) (Int.ofNat time)

/-- Function `sys_task_info` from the source: translate the base address of the
user-supplied `TaskInfo` pointer `ti`; on failure return `-1` without
writing; otherwise write the composed snapshot (current status, syscall
counter table, `get_time_ms() - start_time`) contiguously at the translated
base and return 0.  `st`, `times`, `nowMs`, `startTime` are the current
task's state and the clock, inputs to the model. -/
def sys_task_info (pt : PageTable) (mem : Mem) (ti : Nat) (st : TaskStatus)
    (times : List Nat) (nowMs startTime : Nat) : Int × Mem :=
  match find_phys_addr_user_space pt ti with
  | none => (-1, mem)
  | some pa => (0, writeTaskInfo mem pa st times (nowMs - startTime))

/-- The physical address the source's bulk struct write puts a field with
byte offset `off` at: offset from the translation of the base address. -/
def bulkFieldAddr (pt : PageTable) (base off : Nat) : Option Nat :=
  (find_phys_addr_user_space pt base).map (fun pa => pa + off)

/-- The user-visible physical location of a struct field with byte offset
`off`: the translation of `base + off` through the owner's page table. -/
def userFieldAddr (pt : PageTable) (base off : Nat) : Option Nat :=
  translate pt (base + off)

/-! ## sys_waitpid -/

/-- The part of a child task control block that `sys_waitpid` inspects:
pid, status and exit code. -/
structure Child where
  pid : Nat
  status : TaskStatus
  exit_code : Int
deriving DecidableEq, Repr

/-- Rust `TaskControlBlockInner::is_zombie`. -/
def isZombie (c : Child) : Bool := c.status == TaskStatus.Zombie

/-- Rust's `pid as usize` for `pid : isize`: two's-complement
reinterpretation, i.e. the value modulo `2^64`. -/
def intToUsize (pid : Int) : Nat := (pid.emod (2 ^ 64)).toNat

/-- The target filter of `sys_waitpid`:
`pid == -1 || pid as usize == p.getpid()`. -/
def matchesFilter (pid : Int) (c : Child) : Bool :=
  pid == -1 || intToUsize pid == c.pid

/-- The iterator search of the source,
`children.iter().enumerate().find(|(_, p)| p.is_zombie() && (pid == -1 || pid as usize == p.getpid()))`:
index and value of the first zombie child matching the filter. -/
def findZombie (pid : Int) : List Child → Option (Nat × Child)
  | [] => none
  | c :: cs =>
      if isZombie c && matchesFilter pid c then some (0, c)
      else (findZombie pid cs).map (fun p => (p.1 + 1, p.2))

/-- Modelled from the spec: `translated_refmut` is not under `src/`; per the
spec it writes through the spec's `Translate` of the destination pointer.  On
an unmapped destination the kernel helper does not return (the source has no
failure branch at its call site), modelled as `none`. -/
def translated_refmut_write (pt : PageTable) (mem : Mem) (ptr : Nat) (v : Int) :
    Option Mem :=
  (translate pt ptr).map (fun pa => writeMem mem pa v)

/-- Function `sys_waitpid` from the source.  Inputs: the calling task's page table,
physical memory, the calling task's `children` list, the `pid` argument and
the `exit_code_ptr` argument.  Result `none` models the kernel panic of the
write helper on an unmapped destination (the reaped child has already been
removed at that point and no `-1`/`-2` return is possible); otherwise the
result is the returned value, the new `children` list, and memory. -/
def sys_waitpid (pt : PageTable) (mem : Mem) (children : List Child)
    (pid : Int) (ptr : Nat) : Option (Int × List Child × Mem) :=
  if !(children.any (fun p => matchesFilter pid p)) then
    some (-1, children, mem)
  else
    match findZombie pid children with
    | some (idx, child) =>
        (translated_refmut_write pt mem ptr child.exit_code).map
          (fun mem2 => (Int.ofNat child.pid, children.eraseIdx idx, mem2))
    | none => some (-2, children, mem)

/-! ## sys_mmap and sys_munmap -/

/-- One mapped region of an address space: a half-open virtual page range,
a permission mask, and the byte contents of its framed backing. -/
structure MapArea where
  startVpn : Nat
  endVpn : Nat
  perm : Nat
  data : Nat → Nat

/-- All mapped regions of the calling task's `MemorySet`. -/
abbrev MemorySet : Type := List MapArea

/-- A virtual page is mapped iff some region contains it (spec invariant:
every mapped virtual page has exactly one entry in `regions` and one
translation in the page table, so the regions determine the translations). -/
def msMapped (ms : MemorySet) (vpn : Nat) : Bool :=
  ms.any (fun a => a.startVpn ≤ vpn && vpn < a.endVpn)

/-- Rust `impl From<PortFlag> for MapPermission`:
`MapPermission::from_bits_truncate((port.bits << 1) as u8) | MapPermission::U`
with `MapPermission` bits `R = 2, W = 4, X = 8, U = 16`.  `port.bits` is
already truncated to `0b111`, so the `as u8` cast and the second
`from_bits_truncate` (mask `0b11110`) drop nothing. -/
def portToMapPermission (portBits : Nat) : Nat :=
  (((portBits &&& 7) <<< 1) &&& 0b11110) ||| 16

/-- Does a region intersect the half-open vpn range `[l, r)`? -/
def areaIntersects (a : MapArea) (l r : Nat) : Bool :=
  a.startVpn < r && l < a.endVpn

/-- Modelled from the spec: `MemorySet::find_area_include_range` is not under
`src/`; the spec's mmap contract fails when "the requested virtual range
intersects any existing mapped region", so the lookup returns the first
region intersecting the range, if any. -/
def find_area_include_range (ms : MemorySet) (l r : Nat) : Option MapArea :=
  ms.find? (fun a => areaIntersects a l r)

/-- Modelled from the spec: `MemorySet::insert_framed_area` is not under
`src/`; per the spec it "inserts a new framed, zero-initialized region
spanning the page-rounded range with the translated permission set". -/
def insert_framed_area (ms : MemorySet) (startVa endVa perm : Nat) : MemorySet :=
  ms ++ [{ startVpn := vaFloor startVa, endVpn := vaCeil endVa, perm := perm,
           data := fun _ => 0 }]

/-- Function `sys_mmap` from the source: reject a misaligned `start`; round
`start + len` up to a page boundary; reject a `port` with bits outside
`0b111` (`port & !0b111 != 0`, i.e. `port >>> 3 ≠ 0`) or with no bit inside
(`port & 0b111 == 0`); reject a range intersecting an existing region;
otherwise insert the framed area and return 0. -/
def sys_mmap (ms : MemorySet) (start len port : Nat) : Int × MemorySet :=
  if !vaAligned start then (-1, ms)
  else
    let endVa := vaCeil (start + len) * PAGE_SIZE
    if port >>> 3 != 0 || port &&& 7 == 0 then (-1, ms)
    else if (find_area_include_range ms (vaFloor start) (vaCeil endVa)).isSome then
      (-1, ms)
    else
      (0, insert_framed_area ms start endVa (portToMapPermission (port &&& 7)))

/-- Is a region entirely inside the half-open vpn range `[l, r)`? -/
def areaContained (a : MapArea) (l r : Nat) : Bool :=
  l ≤ a.startVpn && a.endVpn ≤ r

/-- Does the range `[l, r)` correspond exactly to one or more fully mapped
regions?  I.e. at least one region is contained in it, the contained regions
cover every page of it, and no region straddles its boundary. -/
def exactCover (ms : MemorySet) (l r : Nat) : Bool :=
  !(ms.filter (fun a => areaContained a l r)).isEmpty &&
  (List.range (r - l)).all
    (fun i => ms.any (fun a => areaContained a l r &&
      a.startVpn ≤ l + i && l + i < a.endVpn)) &&
  ms.all (fun a => !areaIntersects a l r || areaContained a l r)

/-- Modelled from the spec: `MemorySet::unmap_area_include_range` is not
under `src/`; per the spec the unmap "must match mapped region boundaries
exactly; unmapping a range that does not correspond to one or more
fully-mapped regions fails ... rather than partially unmapping.  On success,
removes the region(s) and their translations."  Returns the syscall result
and the new region list. -/
def unmap_area_include_range (ms : MemorySet) (l r : Nat) : Int × MemorySet :=
  if exactCover ms l r then
    (0, ms.filter (fun a => !areaContained a l r))
  else (-1, ms)

/-- Function `sys_munmap` from the source: reject a misaligned `start`; round
`start + len` up; delegate to the unmap-by-range operation. -/
def sys_munmap (ms : MemorySet) (start len : Nat) : Int × MemorySet :=
  if !vaAligned start then (-1, ms)
  else
    let endVa := vaCeil (start + len) * PAGE_SIZE
    unmap_area_include_range ms (vaFloor start) (vaCeil endVa)

/-! ## sys_fork, sys_exec and sys_spawn -/

/-- Saved user-mode register state; `x` gives the 32 general registers,
`x[10]` is the syscall return-value register. -/
structure TrapContext where
  x : Nat → Nat

/-- Set one register of a trap context. -/
def setReg (cx : TrapContext) (i v : Nat) : TrapContext :=
  { x := fun j => if j == i then v else cx.x j }

/-- A task control block. -/
structure Task where
  pid : Nat
  parent : Option Nat
  children : List Nat
  prio : Nat
  status : TaskStatus
  exit_code : Int
  addressSpace : MemorySet
  trapCx : TrapContext

/-- Kernel state visible to the process-lifecycle syscalls: the table of live
tasks, the scheduler's ready queue (pids, in enqueue order), and the pid
allocator's next fresh pid. -/
structure Kernel where
  tasks : List Task
  ready : List Nat
  nextPid : Nat

/-- The live task with a given pid, if any. -/
def getTask (k : Kernel) (pid : Nat) : Option Task :=
  k.tasks.find? (fun t => t.pid == pid)

/-- Replace the task with a given pid by `f` of it (pids of other tasks are
untouched). -/
def updateTask (k : Kernel) (pid : Nat) (f : Task → Task) : Kernel :=
  { k with tasks := k.tasks.map (fun t => if t.pid == pid then f t else t) }

/-- A program image as handed out by the loader. -/
abbrev Image : Type := List Nat

/-- The external loader: `get_app_data_by_name` looks an image up by name. -/
def get_app_data_by_name (apps : List (String × Image)) (name : String) :
    Option Image :=
  (apps.find? (fun e => e.1 == name)).map (fun e => e.2)

/-- Modelled from the spec: `TaskControlBlock::exec` is not under `src/`; per
the spec it "discards the calling task's current Address Space and trap
context and rebuilds them from the image, preserving pid, parent, children,
and priority".  `buildAS` and `buildCx` are the external image loader's
address-space and trap-context construction. -/
def taskExec (buildAS : Image → MemorySet) (buildCx : Image → TrapContext)
    (img : Image) (t : Task) : Task :=
  { t with addressSpace := buildAS img, trapCx := buildCx img }

/-- Function `sys_exec` from the source: look the (already translated) path up with
the loader; if found, run `task.exec(data)` on the calling task and return 0,
else return `-1`.  `cur` is the calling task's pid. -/
def sys_exec (buildAS : Image → MemorySet) (buildCx : Image → TrapContext)
    (apps : List (String × Image)) (k : Kernel) (cur : Nat) (path : String) :
    Int × Kernel :=
  match get_app_data_by_name apps path with
  | some data => (0, updateTask k cur (taskExec buildAS buildCx data))
  | none => (-1, k)

/-- Modelled from the spec: `TaskControlBlock::fork` is not under `src/`; per
the spec it "duplicates the calling task's entire Address Space (deep copy of
all mapped regions and their contents) and trap context into a new TCB;
assigns a fresh pid; links the new task as a child of the caller". -/
def taskFork (t : Task) (newPid curPid : Nat) : Task :=
  { t with pid := newPid, parent := some curPid, children := [],
           status := TaskStatus.Ready }

/-- Function `sys_fork` from the source: duplicate the current task, force the
duplicate's return-value register `x[10]` to zero, register the duplicate
with the scheduler (`add_task`), and return the fresh pid to the caller.
`none` models the `unwrap` of a missing current task. -/
def sys_fork (k : Kernel) (cur : Nat) : Option (Int × Kernel) :=
  (getTask k cur).map (fun t =>
    let newPid := k.nextPid
    let child0 := taskFork t newPid cur
    let child := { child0 with trapCx := setReg child0.trapCx 10 0 }
    let k1 := updateTask k cur (fun u => { u with children := u.children ++ [newPid] })
    (Int.ofNat newPid,
     { k1 with tasks := k1.tasks ++ [child], ready := k1.ready ++ [newPid],
               nextPid := k.nextPid + 1 }))

/-- Modelled from the spec: `TaskControlBlock::spawn` is not under `src/`;
per the spec it "creates a new task whose address space is built directly
from the named image (not copied from the parent), linked as a child of the
caller"; the new task has the default priority 16 and a fresh pid. -/
def taskSpawn (buildAS : Image → MemorySet) (buildCx : Image → TrapContext)
    (img : Image) (newPid curPid : Nat) : Task :=
  { pid := newPid, parent := some curPid, children := [], prio := 16,
    status := TaskStatus.Ready, exit_code := 0,
    addressSpace := buildAS img, trapCx := buildCx img }

/-- Function `sys_spawn` from the source: look the (already translated) path up with
the loader; if found, build the new task from the image, register it with
the scheduler (`add_task`), and return its pid; else return `-1` with no
task created. -/
def sys_spawn (buildAS : Image → MemorySet) (buildCx : Image → TrapContext)
    (apps : List (String × Image)) (k : Kernel) (cur : Nat) (path : String) :
    Int × Kernel :=
  match get_app_data_by_name apps path with
  | some data =>
      let newPid := k.nextPid
      let child := taskSpawn buildAS buildCx data newPid cur
      let k1 := updateTask k cur (fun u => { u with children := u.children ++ [newPid] })
      (Int.ofNat newPid,
       { k1 with tasks := k1.tasks ++ [child], ready := k1.ready ++ [newPid],
                 nextPid := k.nextPid + 1 })
  | none => (-1, k)

/-! ## Concrete objects for instantiations -/

/-- A sample mapped region covering virtual page 0. -/
def area0 : MapArea :=
  { startVpn := 0, endVpn := 1, perm := 18, data := fun _ => 0 }

/-- A sample mapped region covering virtual page 1. -/
def area1 : MapArea :=
  { startVpn := 1, endVpn := 2, perm := 22, data := fun _ => 0 }

/-- The all-zero trap context. -/
def cx0 : TrapContext := { x := fun _ => 0 }

/-- A sample running task with pid 0. -/
def task0 : Task :=
  { pid := 0, parent := none, children := [], prio := 16,
    status := TaskStatus.Running, exit_code := 0, addressSpace := [],
    trapCx := cx0 }

/-- A sample kernel state containing only `task0`. -/
def kernel0 : Kernel := { tasks := [task0], ready := [], nextPid := 5 }

/-- A sample loader address-space builder. -/
def buildAS0 : Image → MemorySet := fun _ => [area0]

/-- A sample loader trap-context builder. -/
def buildCx0 : Image → TrapContext := fun _ => cx0

/-- A sample loader app table. -/
def apps0 : List (String × Image) := [("app", [1, 2, 3])]

/-! ## Helper lemmas -/

theorem findZombie_eq_none (pid : Int) (cs : List Child)
    (h : ∀ c ∈ cs, (isZombie c && matchesFilter pid c) = false) :
    findZombie pid cs = none := by
  induction cs with
  | nil => rfl
  | cons c cs ih =>
      have hc := h c (by simp)
      simp [findZombie, hc, ih (fun x hx => h x (by simp [hx]))]

theorem findZombie_first (pid : Int) (cs : List Child) (idx : Nat) (c : Child)
    (h1 : cs.get? idx = some c)
    (h2 : (isZombie c && matchesFilter pid c) = true)
    (h3 : ∀ j cj, j < idx → cs.get? j = some cj →
        (isZombie cj && matchesFilter pid cj) = false) :
    findZombie pid cs = some (idx, c) := by
  induction cs generalizing idx with
  | nil => simp at h1
  | cons c0 cs ih =>
      cases idx with
      | zero =>
          have hc : c0 = c := by simpa using h1
          subst hc
          simp [findZombie, h2]
      | succ n =>
          have hc0 : (isZombie c0 && matchesFilter pid c0) = false :=
            h3 0 c0 (Nat.succ_pos n) rfl
          have hrec := ih n (by simpa using h1)
            (fun j cj hj hg =>
              h3 (j + 1) cj (Nat.succ_lt_succ hj) (by simpa using hg))
          simp [findZombie, hc0, hrec]

theorem findZombie_some (pid : Int) (cs : List Child) : ∀ (i : Nat) (c : Child),
    findZombie pid cs = some (i, c) →
    cs.get? i = some c ∧ (isZombie c && matchesFilter pid c) = true := by
  induction cs with
  | nil => intro i c h; simp [findZombie] at h
  | cons c0 cs ih =>
      intro i c h
      rw [findZombie] at h
      by_cases h0 : (isZombie c0 && matchesFilter pid c0) = true
      · rw [if_pos h0] at h
        have h1 : (0 : Nat) = i ∧ c0 = c := by simpa using h
        obtain ⟨hi, hc⟩ := h1
        subst hi; subst hc
        exact ⟨rfl, h0⟩
      · rw [if_neg h0] at h
        cases hfz : findZombie pid cs with
        | none => rw [hfz] at h; simp at h
        | some p =>
            obtain ⟨pi, pc⟩ := p
            rw [hfz] at h
            have h1 : pi + 1 = i ∧ pc = c := by simpa using h
            obtain ⟨hi, hc⟩ := h1
            subst hi; subst hc
            have := ih pi pc hfz
            simpa using this

/-! ## Claim theorems -/

/-- C1: for every call to `sys_waitpid` (with a translatable exit-code
destination): if no child matches the target filter the call returns `-1`;
if at least one child matches but no matching child is a Zombie the call
returns `-2` and the children list is unchanged; otherwise the first
matching Zombie child in child-list order is removed from the children list,
its exit code is written at the translation of the output pointer, and its
pid is returned. -/
theorem waitpid_branches (pt : PageTable) (mem : Mem) (children : List Child)
    (pid : Int) (ptr pa : Nat) (hpa : translate pt ptr = some pa) :
    ((∀ c ∈ children, matchesFilter pid c = false) →
        sys_waitpid pt mem children pid ptr = some (-1, children, mem)) ∧
    ((∃ c ∈ children, matchesFilter pid c = true) →
        (∀ c ∈ children, matchesFilter pid c = true → isZombie c = false) →
        sys_waitpid pt mem children pid ptr = some (-2, children, mem)) ∧
    (∀ idx c, children.get? idx = some c → isZombie c = true →
        matchesFilter pid c = true →
        (∀ j cj, j < idx → children.get? j = some cj →
            ¬(isZombie cj = true ∧ matchesFilter pid cj = true)) →
        sys_waitpid pt mem children pid ptr =
          some (Int.ofNat c.pid, children.eraseIdx idx,
                writeMem mem pa c.exit_code)) := by
  refine ⟨?_, ?_, ?_⟩
  · intro h
    have hany : children.any (fun p => matchesFilter pid p) = false :=
      List.any_eq_false.mpr (fun c hc => by simp [h c hc])
    simp [sys_waitpid, hany]
  · rintro ⟨c, hc, hm⟩ hz
    have hany : children.any (fun p => matchesFilter pid p) = true :=
      List.any_eq_true.mpr ⟨c, hc, hm⟩
    have hfz : findZombie pid children = none := by
      refine findZombie_eq_none pid children (fun x hx => ?_)
      by_cases hmx : matchesFilter pid x = true
      · simp [hz x hx hmx]
      · simp [Bool.eq_false_iff.mpr hmx]
    simp [sys_waitpid, hany, hfz]
  · intro idx c hg hz hm hleast
    have hany : children.any (fun p => matchesFilter pid p) = true :=
      List.any_eq_true.mpr ⟨c, List.get?_mem hg, hm⟩
    have hfz : findZombie pid children = some (idx, c) := by
      refine findZombie_first pid children idx c hg (by simp [hz, hm])
        (fun j cj hj hgj => ?_)
      by_cases hbz : isZombie cj = true
      · by_cases hbm : matchesFilter pid cj = true
        · exact absurd ⟨hbz, hbm⟩ (hleast j cj hj hgj)
        · simp [Bool.eq_false_iff.mpr hbm]
      · simp [Bool.eq_false_iff.mpr hbz]
    simp [sys_waitpid, hany, hfz, translated_refmut_write, hpa, writeMem]

/-- C1 witness: one zombie child with pid 7 and exit code 42, reaped through
a mapped pointer. -/
theorem waitpid_branches_witness :
    sys_waitpid [(0, 1)] [] [⟨7, TaskStatus.Zombie, 42⟩] (-1) 4 =
      some (7, [], [(4100, 42)]) :=
  (waitpid_branches [(0, 1)] [] [⟨7, TaskStatus.Zombie, 42⟩] (-1) 4 4100
      (by decide)).2.2 0 ⟨7, TaskStatus.Zombie, 42⟩ rfl (by decide) (by decide)
    (fun j cj hj _ => absurd hj (Nat.not_lt_zero j))

/-- C2: refuted — `sys_get_time` translates only the base address of the
destination and writes the whole struct contiguously from it.  With page 0
mapped to frame 5 and page 1 mapped to frame 9 and the `TimeVal` at virtual
address 4088, the `usec` field belongs at physical address `9 * 4096 = 36864`
(the translation of virtual 4096), but the bulk write puts it at
`5 * 4096 + 4088 + 8 = 24576`, and nothing is ever written at 36864. -/
theorem get_time_cross_page_misplaced :
    userFieldAddr [(0, 5), (1, 9)] 4088 8 = some 36864 ∧
    bulkFieldAddr [(0, 5), (1, 9)] 4088 8 = some 24576 ∧
    sys_get_time [(0, 5), (1, 9)] [] 4088 1234567 =
      (0, [(24576, 234567), (24568, 1)]) ∧
    readMem (sys_get_time [(0, 5), (1, 9)] [] 4088 1234567).2 36864 = none := by
  decide

/-- C3 counterexample: with one matching zombie child and an unmapped
exit-code destination, `sys_waitpid` does not return `-1` with the caller's
state unchanged — the reaped child is removed before the write is attempted
and the unchecked translation makes the call diverge (kernel panic), modelled
as `none`. -/
theorem waitpid_unmapped_ptr_counterexample :
    translate [] 0 = none ∧
    sys_waitpid [] [] [⟨7, TaskStatus.Zombie, 42⟩] (-1) 0 = none ∧
    sys_waitpid [] [] [⟨7, TaskStatus.Zombie, 42⟩] (-1) 0 ≠
      some (-1, [⟨7, TaskStatus.Zombie, 42⟩], []) := by
  decide

/-- C3 amended: if the destination does not translate, `sys_get_time` and
`sys_task_info` return `-1` and write no user memory, leaving the caller's
state unchanged; `sys_waitpid` performs no translation check — when a
matching zombie child exists the attempted write through an untranslatable
pointer makes the call diverge instead of returning `-1`. -/
theorem translation_failure_behavior (pt : PageTable) (mem : Mem) (p : Nat)
    (hp : translate pt p = none) :
    (∀ us, sys_get_time pt mem p us = (-1, mem)) ∧
    (∀ st times nowMs startTime,
        sys_task_info pt mem p st times nowMs startTime = (-1, mem)) ∧
    (∀ children pid idx c, findZombie pid children = some (idx, c) →
        sys_waitpid pt mem children pid p = none) := by
  refine ⟨?_, ?_, ?_⟩
  · intro us
    simp [sys_get_time, find_phys_addr_user_space, hp]
  · intro st times nowMs startTime
    simp [sys_task_info, find_phys_addr_user_space, hp]
  · intro children pid idx c hfz
    obtain ⟨hg, hzc⟩ := findZombie_some pid children idx c hfz
    have hm : matchesFilter pid c = true := by
      revert hzc
      cases matchesFilter pid c <;> simp
    have hany : children.any (fun x => matchesFilter pid x) = true :=
      List.any_eq_true.mpr ⟨c, List.get?_mem hg, hm⟩
    simp [sys_waitpid, hany, hfz, translated_refmut_write, hp]

/-- C3 amended witness: unmapped destination at virtual 0 in an empty page
table. -/
theorem translation_failure_behavior_witness :
    sys_get_time [] [] 0 0 = (-1, []) ∧
    sys_waitpid [] [] [⟨9, TaskStatus.Zombie, 1⟩] (-1) 0 = none :=
  ⟨(translation_failure_behavior [] [] 0 rfl).1 0,
   (translation_failure_behavior [] [] 0 rfl).2.2 [⟨9, TaskStatus.Zombie, 1⟩]
     (-1) 0 ⟨9, TaskStatus.Zombie, 1⟩ rfl⟩

/-- C10: a negative `pid` argument other than `-1` is not a wildcard: the
`pid as usize` cast turns it into a value at least `2^63`, which matches no
child's pid, so the call returns `-1` and no child is reaped, however many
children exist or have exited. -/
theorem waitpid_negative_pid_not_wildcard (pt : PageTable) (mem : Mem)
    (children : List Child) (pid : Int) (ptr : Nat)
    (h1 : pid < -1) (h2 : -(2 ^ 63) ≤ pid)
    (h3 : ∀ c ∈ children, c.pid < 2 ^ 63) :
    sys_waitpid pt mem children pid ptr = some (-1, children, mem) := by
  have h63 : (2 : Int) ^ 63 = 9223372036854775808 := by norm_num
  have h64 : (2 : Int) ^ 64 = 18446744073709551616 := by norm_num
  rw [h63] at h2
  have e1 : (pid + 2 ^ 64) % ((2 : Int) ^ 64) = pid % (2 ^ 64) := by
    have := Int.add_mul_emod_self_left pid ((2 : Int) ^ 64) 1
    rwa [mul_one] at this
  have e2 : (pid + 2 ^ 64) % ((2 : Int) ^ 64) = pid + 2 ^ 64 :=
    Int.emod_eq_of_lt (by rw [h64] at *; omega) (by rw [h64] at *; omega)
  have hmod : pid.emod (2 ^ 64) = pid + 2 ^ 64 := e1.symm.trans e2
  have hge : 9223372036854775808 ≤ intToUsize pid := by
    rw [intToUsize, hmod, h64]
    omega
  have hmf : ∀ c ∈ children, matchesFilter pid c = false := by
    intro c hc
    have hne1 : pid ≠ -1 := by omega
    have hne2 : intToUsize pid ≠ c.pid := by
      have hcp := h3 c hc
      have hcp2 : c.pid < 9223372036854775808 := by
        calc c.pid < 2 ^ 63 := hcp
        _ = 9223372036854775808 := by norm_num
      omega
    simp [matchesFilter, hne1, hne2]
  have hany : children.any (fun p => matchesFilter pid p) = false :=
    List.any_eq_false.mpr (fun c hc => by simp [hmf c hc])
  simp [sys_waitpid, hany]

/-- C10 witness: `pid = -2` with one exited child of pid 5. -/
theorem waitpid_negative_pid_not_wildcard_witness :
    sys_waitpid [] [] [⟨5, TaskStatus.Zombie, 3⟩] (-2) 0 =
      some (-1, [⟨5, TaskStatus.Zombie, 3⟩], []) :=
  waitpid_negative_pid_not_wildcard [] [] [⟨5, TaskStatus.Zombie, 3⟩] (-2) 0
    (by decide) (by decide) (by decide)

/-- Rounding a page-aligned address down to a page number undoes the
multiplication by the page size. -/
theorem vaCeil_mul_PAGE (k : Nat) : vaCeil (k * PAGE_SIZE) = k := by
  rw [vaCeil, PAGE_SIZE]
  have h : k * 4096 + 4096 - 1 = 4095 + k * 4096 := by omega
  rw [h, Nat.add_mul_div_right 4095 k (by norm_num)]
  norm_num

/-- A `port` mask is its own low three bits exactly when it is below 8. -/
theorem port_and_7 (port : Nat) (h : port < 8) : port &&& 7 = port := by
  rw [Nat.and_pow_two_sub_one_eq_mod port 3]
  omega

/-- C4: `sys_mmap` returns `-1` and leaves the mapped-region set unchanged
whenever `start` is misaligned, or `port` is 0, or `port` has a bit outside
`{1,2,4}`, or the page-rounded range intersects an existing region. -/
theorem mmap_rejects (ms : MemorySet) (start len port : Nat)
    (h : vaAligned start = false ∨ port = 0 ∨ port >>> 3 ≠ 0 ∨
        ∃ a ∈ ms, areaIntersects a (vaFloor start) (vaCeil (start + len)) = true) :
    sys_mmap ms start len port = (-1, ms) := by
  by_cases ha : vaAligned start
  case neg =>
    simp [sys_mmap, ha]
  case pos =>
    by_cases hport : (port >>> 3 != 0 || port &&& 7 == 0) = true
    · simp [sys_mmap, ha, hport]
    · have hport2 : (port >>> 3 != 0 || port &&& 7 == 0) = false :=
        Bool.eq_false_iff.mpr hport
      rcases h with h | h | h | h
      · simp [ha] at h
      · subst h; simp at hport2
      · exfalso
        apply h
        have := hport2
        simp [Bool.or_eq_false_iff] at this
        exact this.1
      · obtain ⟨a, haMem, hint⟩ := h
        have hsome : (find_area_include_range ms (vaFloor start)
            (vaCeil (vaCeil (start + len) * PAGE_SIZE))).isSome = true := by
          rw [vaCeil_mul_PAGE]
          exact List.find?_isSome.mpr ⟨a, haMem, hint⟩
        simp [sys_mmap, ha, hport2, hsome]

/-- C4 witness: an mmap over virtual pages `[0,1)` while `area0` already
covers page 0 fails and leaves the region set intact. -/
theorem mmap_rejects_witness :
    sys_mmap [area0] 0 4096 1 = (-1, [area0]) :=
  mmap_rejects [area0] 0 4096 1
    (Or.inr (Or.inr (Or.inr ⟨area0, by simp, by decide⟩)))

/-- C5: a page-aligned, valid, non-intersecting `sys_mmap` returns 0 and
appends exactly one new zero-initialized region spanning the page-rounded
range, whose permission mask is the requested R/W/X bits shifted into the
map-permission encoding with the User flag (bit 4, value 16) always set. -/
theorem mmap_success (ms : MemorySet) (start len port : Nat)
    (ha : vaAligned start = true) (hp0 : port ≠ 0) (hp3 : port >>> 3 = 0)
    (hov : ∀ a ∈ ms, areaIntersects a (vaFloor start) (vaCeil (start + len)) = false) :
    sys_mmap ms start len port =
      (0, ms ++ [{ startVpn := vaFloor start, endVpn := vaCeil (start + len),
                   perm := portToMapPermission port, data := fun _ => 0 }]) ∧
    portToMapPermission port &&& 16 = 16 ∧
    (portToMapPermission port).testBit 1 = port.testBit 0 ∧
    (portToMapPermission port).testBit 2 = port.testBit 1 ∧
    (portToMapPermission port).testBit 3 = port.testBit 2 := by
  have hlt : port < 8 := by
    rw [Nat.shiftRight_eq_div_pow] at hp3
    omega
  have hand7 : port &&& 7 = port := port_and_7 port hlt
  constructor
  · have hp7 : (port &&& 7 == 0) = false := by
      rw [hand7]
      simp [hp0]
    have hsh : (port >>> 3 != 0) = false := by
      rw [hp3]
      simp
    have hnone : find_area_include_range ms (start / PAGE_SIZE)
        (vaCeil (start + len)) = none :=
      List.find?_eq_none.mpr (fun a haMem => by
        have := hov a haMem
        rw [vaFloor] at this
        simp [this])
    simp [sys_mmap, ha, hsh, hp7, hp0, hnone, insert_framed_area,
      vaCeil_mul_PAGE, hand7, vaFloor]
  · interval_cases port
    all_goals first
      | exact absurd rfl hp0
      | refine ⟨by decide, by decide, by decide, by decide⟩

/-- C5 witness: mapping one read-write page at virtual address 4096. -/
theorem mmap_success_witness :
    sys_mmap [] 4096 1 3 =
      (0, [{ startVpn := 1, endVpn := 2, perm := portToMapPermission 3,
             data := fun _ => 0 }]) :=
  (mmap_success [] 4096 1 3 rfl (by decide) rfl (by simp)).1

/-- C6: `sys_munmap` returns `-1` leaving the region set unchanged when
`start` is misaligned or when the page-rounded range does not correspond
exactly to one or more fully mapped regions; on success it returns 0,
removes exactly the covered regions, no page of the range stays translated,
and an immediately repeated munmap of the same range returns `-1`. -/
theorem munmap_behavior (ms : MemorySet) (start len : Nat) :
    (vaAligned start = false → sys_munmap ms start len = (-1, ms)) ∧
    (vaAligned start = true →
        exactCover ms (vaFloor start) (vaCeil (start + len)) = false →
        sys_munmap ms start len = (-1, ms)) ∧
    (vaAligned start = true →
        exactCover ms (vaFloor start) (vaCeil (start + len)) = true →
        sys_munmap ms start len =
          (0, ms.filter (fun a =>
              !areaContained a (vaFloor start) (vaCeil (start + len)))) ∧
        (∀ vpn, vaFloor start ≤ vpn → vpn < vaCeil (start + len) →
            msMapped (ms.filter (fun a =>
              !areaContained a (vaFloor start) (vaCeil (start + len)))) vpn = false) ∧
        sys_munmap (ms.filter (fun a =>
              !areaContained a (vaFloor start) (vaCeil (start + len)))) start len =
          (-1, ms.filter (fun a =>
              !areaContained a (vaFloor start) (vaCeil (start + len))))) := by
  refine ⟨?_, ?_, ?_⟩
  · intro h
    simp [sys_munmap, h]
  · intro ha hcov
    simp [sys_munmap, unmap_area_include_range, ha, vaCeil_mul_PAGE, hcov]
  · intro ha hcov
    have hstraddle : ms.all (fun a =>
        !areaIntersects a (vaFloor start) (vaCeil (start + len)) ||
        areaContained a (vaFloor start) (vaCeil (start + len))) = true := by
      rw [exactCover] at hcov
      cases hx : ms.all (fun a =>
          !areaIntersects a (vaFloor start) (vaCeil (start + len)) ||
          areaContained a (vaFloor start) (vaCeil (start + len)))
      · rw [hx] at hcov
        simp at hcov
      · rfl
    refine ⟨?_, ?_, ?_⟩
    · simp [sys_munmap, unmap_area_include_range, ha, vaCeil_mul_PAGE, hcov]
    · intro vpn h1 h2
      rw [msMapped]
      apply List.any_eq_false.mpr
      intro a haf
      obtain ⟨haMem, hanc⟩ := List.mem_filter.mp haf
      have hanc2 : areaContained a (vaFloor start) (vaCeil (start + len)) = false := by
        revert hanc
        cases areaContained a (vaFloor start) (vaCeil (start + len)) <;> simp
      intro hcontra
      have hin : areaIntersects a (vaFloor start) (vaCeil (start + len)) = true := by
        simp [areaIntersects]
        simp at hcontra
        omega
      have := List.all_eq_true.mp hstraddle a haMem
      rw [hin, hanc2] at this
      simp at this
    · have hempty : (ms.filter (fun a =>
          !areaContained a (vaFloor start) (vaCeil (start + len)))).filter
            (fun a => areaContained a (vaFloor start) (vaCeil (start + len))) = [] := by
        apply List.filter_eq_nil_iff.mpr
        intro a haf
        obtain ⟨haMem, hanc⟩ := List.mem_filter.mp haf
        revert hanc
        cases areaContained a (vaFloor start) (vaCeil (start + len)) <;> simp
      have hcov2 : exactCover (ms.filter (fun a =>
          !areaContained a (vaFloor start) (vaCeil (start + len))))
          (vaFloor start) (vaCeil (start + len)) = false := by
        rw [exactCover, hempty]
        simp
      simp [sys_munmap, unmap_area_include_range, ha, vaCeil_mul_PAGE, hcov2]

/-- C6 witness: `area1` maps exactly virtual page 1; unmapping
`[4096, 8192)` succeeds and empties the region set, and repeating the same
unmap fails with `-1`. -/
theorem munmap_behavior_witness :
    sys_munmap [area1] 4096 4096 = (0, []) ∧
    msMapped ([] : MemorySet) 1 = false ∧
    sys_munmap ([] : MemorySet) 4096 4096 = (-1, []) := by
  have h := (munmap_behavior [area1] 4096 4096).2.2 rfl (by decide)
  have hfil : ([area1].filter (fun a =>
      !areaContained a (vaFloor 4096) (vaCeil (4096 + 4096)))) = ([] : MemorySet) := rfl
  refine ⟨?_, ?_, ?_⟩
  · rw [h.1, hfil]
  · have := h.2.1 1 (by decide) (by decide)
    rwa [hfil] at this
  · have := h.2.2
    rwa [hfil] at this

theorem find?_map_update (cur : Nat) (f : Task → Task)
    (hf : ∀ t, (f t).pid = t.pid) (ts : List Task) :
    (ts.map (fun t => if t.pid == cur then f t else t)).find?
        (fun t => t.pid == cur)
      = (ts.find? (fun t => t.pid == cur)).map f := by
  induction ts with
  | nil => rfl
  | cons t ts ih =>
      simp only [List.map_cons]
      by_cases hp : t.pid = cur
      · have h : (t.pid == cur) = true := beq_iff_eq.mpr hp
        have hft : ((f t).pid == cur) = true := by rw [hf t]; exact h
        rw [if_pos h]
        rw [@List.find?_cons_of_pos Task (fun u => u.pid == cur) (f t) _ hft]
        rw [@List.find?_cons_of_pos Task (fun u => u.pid == cur) t ts h]
        rfl
      · have hnp : ¬((t.pid == cur) = true) := by simp [hp]
        rw [if_neg hnp]
        rw [@List.find?_cons_of_neg Task (fun u => u.pid == cur) t _ hnp]
        rw [@List.find?_cons_of_neg Task (fun u => u.pid == cur) t ts hnp]
        exact ih

theorem getTask_updateTask (k : Kernel) (cur : Nat) (f : Task → Task)
    (hf : ∀ t, (f t).pid = t.pid) :
    getTask (updateTask k cur f) cur = (getTask k cur).map f :=
  find?_map_update cur f hf k.tasks

theorem updateTask_pid_bound (k : Kernel) (cur : Nat) (f : Task → Task)
    (N : Nat) (hf : ∀ t, (f t).pid = t.pid)
    (h : ∀ t ∈ k.tasks, t.pid < N) :
    ∀ u ∈ (updateTask k cur f).tasks, u.pid < N := by
  intro u hu
  rw [updateTask] at hu
  obtain ⟨t, htm, hrfl⟩ := List.mem_map.mp hu
  subst hrfl
  cases hc : (t.pid == cur) with
  | true => simp [hc, hf t]; exact h t htm
  | false => simp [hc]; exact h t htm

/-- C7: `sys_exec` with a loadable image returns 0 and rebuilds the calling
task's address space and trap context from the image while preserving its
pid, parent, children and priority (the record update touches no other
field), creating no task and touching no other kernel state; with an unknown
name it returns `-1` and the whole kernel state is unchanged. -/
theorem exec_behavior (buildAS : Image → MemorySet)
    (buildCx : Image → TrapContext) (apps : List (String × Image))
    (k : Kernel) (cur : Nat) (path : String) (t : Task)
    (ht : getTask k cur = some t) :
    (∀ img, get_app_data_by_name apps path = some img →
        (sys_exec buildAS buildCx apps k cur path).1 = 0 ∧
        getTask (sys_exec buildAS buildCx apps k cur path).2 cur =
          some { t with addressSpace := buildAS img, trapCx := buildCx img } ∧
        (sys_exec buildAS buildCx apps k cur path).2.tasks.length =
          k.tasks.length ∧
        (sys_exec buildAS buildCx apps k cur path).2.ready = k.ready ∧
        (sys_exec buildAS buildCx apps k cur path).2.nextPid = k.nextPid) ∧
    (get_app_data_by_name apps path = none →
        sys_exec buildAS buildCx apps k cur path = (-1, k)) := by
  constructor
  · intro img himg
    have hupd : getTask (updateTask k cur (taskExec buildAS buildCx img)) cur
        = (getTask k cur).map (taskExec buildAS buildCx img) :=
      getTask_updateTask k cur _ (fun u => rfl)
    refine ⟨by simp [sys_exec, himg], ?_, ?_, ?_, ?_⟩
    · simp [sys_exec, himg, hupd, ht, taskExec]
    · simp [sys_exec, himg, updateTask]
    · simp [sys_exec, himg, updateTask]
    · simp [sys_exec, himg, updateTask]
  · intro hnone
    simp [sys_exec, hnone]

/-- C7 witness: `kernel0` executes the image named `app`; the unknown name
`nope` leaves the kernel unchanged. -/
theorem exec_behavior_witness :
    (sys_exec buildAS0 buildCx0 apps0 kernel0 0 "app").1 = 0 ∧
    getTask (sys_exec buildAS0 buildCx0 apps0 kernel0 0 "app").2 0 =
      some { task0 with addressSpace := buildAS0 [1, 2, 3],
                        trapCx := buildCx0 [1, 2, 3] } ∧
    sys_exec buildAS0 buildCx0 apps0 kernel0 0 "nope" = (-1, kernel0) :=
  ⟨(exec_behavior buildAS0 buildCx0 apps0 kernel0 0 "app" task0 rfl).1
      [1, 2, 3] rfl |>.1,
   (exec_behavior buildAS0 buildCx0 apps0 kernel0 0 "app" task0 rfl).1
      [1, 2, 3] rfl |>.2.1,
   (exec_behavior buildAS0 buildCx0 apps0 kernel0 0 "nope" task0 rfl).2 rfl⟩

/-- C8: `sys_spawn` with a loadable image links a fresh-pid child of the
caller built directly from the image, marks it Ready and enqueues it with
the scheduler, and returns the fresh pid (nonnegative); with an unknown name
it returns `-1` and creates or registers nothing. -/
theorem spawn_behavior (buildAS : Image → MemorySet)
    (buildCx : Image → TrapContext) (apps : List (String × Image))
    (k : Kernel) (cur : Nat) (path : String) (t : Task)
    (ht : getTask k cur = some t)
    (hb : ∀ u ∈ k.tasks, u.pid < k.nextPid) :
    (∀ img, get_app_data_by_name apps path = some img →
        (sys_spawn buildAS buildCx apps k cur path).1 = Int.ofNat k.nextPid ∧
        0 ≤ (sys_spawn buildAS buildCx apps k cur path).1 ∧
        (∀ u ∈ k.tasks, u.pid ≠ k.nextPid) ∧
        getTask (sys_spawn buildAS buildCx apps k cur path).2 k.nextPid =
          some (taskSpawn buildAS buildCx img k.nextPid cur) ∧
        (taskSpawn buildAS buildCx img k.nextPid cur).parent = some cur ∧
        (taskSpawn buildAS buildCx img k.nextPid cur).status =
          TaskStatus.Ready ∧
        (taskSpawn buildAS buildCx img k.nextPid cur).addressSpace =
          buildAS img ∧
        (sys_spawn buildAS buildCx apps k cur path).2.ready =
          k.ready ++ [k.nextPid] ∧
        (∃ t2, getTask (sys_spawn buildAS buildCx apps k cur path).2 cur =
            some t2 ∧ t2.children = t.children ++ [k.nextPid]) ∧
        (sys_spawn buildAS buildCx apps k cur path).2.tasks.length =
          k.tasks.length + 1) ∧
    (get_app_data_by_name apps path = none →
        sys_spawn buildAS buildCx apps k cur path = (-1, k)) := by
  constructor
  · intro img himg
    have hupdb : ∀ u ∈ (updateTask k cur
        (fun u => { u with children := u.children ++ [k.nextPid] })).tasks,
        u.pid < k.nextPid :=
      updateTask_pid_bound k cur _ k.nextPid (fun u => rfl) hb
    have hfindn : (updateTask k cur
        (fun u => { u with children := u.children ++ [k.nextPid] })).tasks.find?
          (fun u => u.pid == k.nextPid) = none :=
      List.find?_eq_none.mpr (fun u hu => by
        simp only [beq_iff_eq]
        exact fun he => absurd he (Nat.ne_of_lt (hupdb u hu)))
    have hupd : getTask (updateTask k cur
        (fun u => { u with children := u.children ++ [k.nextPid] })) cur
        = (getTask k cur).map
            (fun u => { u with children := u.children ++ [k.nextPid] }) :=
      getTask_updateTask k cur _ (fun u => rfl)
    refine ⟨by simp [sys_spawn, himg], by simp [sys_spawn, himg], ?_, ?_, rfl,
      rfl, rfl, by simp [sys_spawn, himg, updateTask], ?_, ?_⟩
    · intro u hu
      exact Nat.ne_of_lt (hb u hu)
    · simp [sys_spawn, himg, getTask, List.find?_append, hfindn, taskSpawn]
    · refine ⟨{ t with children := t.children ++ [k.nextPid] }, ?_, rfl⟩
      simp only [sys_spawn, himg]
      rw [getTask, List.find?_append]
      have hthis : (updateTask k cur
          (fun u => { u with children := u.children ++ [k.nextPid] })).tasks.find?
            (fun u => u.pid == cur) =
          some { t with children := t.children ++ [k.nextPid] } := by
        have h2 := hupd
        rw [ht] at h2
        rw [getTask] at h2
        exact h2
      rw [hthis]
      rfl
    · simp [sys_spawn, himg, updateTask]
  · intro hnone
    simp [sys_spawn, hnone]

/-- C8 witness: spawning the image named `app` from `kernel0`; the unknown
name `nope` changes nothing. -/
theorem spawn_behavior_witness :
    (sys_spawn buildAS0 buildCx0 apps0 kernel0 0 "app").1 = Int.ofNat 5 ∧
    getTask (sys_spawn buildAS0 buildCx0 apps0 kernel0 0 "app").2 5 =
      some (taskSpawn buildAS0 buildCx0 [1, 2, 3] 5 0) ∧
    sys_spawn buildAS0 buildCx0 apps0 kernel0 0 "nope" = (-1, kernel0) :=
  ⟨(spawn_behavior buildAS0 buildCx0 apps0 kernel0 0 "app" task0 rfl
      (by decide)).1 [1, 2, 3] rfl |>.1,
   (spawn_behavior buildAS0 buildCx0 apps0 kernel0 0 "app" task0 rfl
      (by decide)).1 [1, 2, 3] rfl |>.2.2.2.1,
   (spawn_behavior buildAS0 buildCx0 apps0 kernel0 0 "nope" task0 rfl
      (by decide)).2 rfl⟩

/-- C9: `sys_fork` duplicates the caller into a child whose return-value
register `x[10]` is forced to zero before the child is enqueued (the
enqueued child record already carries the zero), every other register and
the address space being copies of the caller's; the caller receives the
fresh pid, which is positive, so exactly one of the two tasks observes 0
and the other a positive pid. -/
theorem fork_behavior (k : Kernel) (cur : Nat) (t : Task)
    (ht : getTask k cur = some t)
    (hb : ∀ u ∈ k.tasks, u.pid < k.nextPid) :
    ∃ k2, sys_fork k cur = some (Int.ofNat k.nextPid, k2) ∧
      0 < k.nextPid ∧
      (∃ child, getTask k2 k.nextPid = some child ∧
          child.trapCx.x 10 = 0 ∧
          (∀ i, i ≠ 10 → child.trapCx.x i = t.trapCx.x i) ∧
          child.addressSpace = t.addressSpace ∧
          child.parent = some cur ∧
          child.status = TaskStatus.Ready ∧
          k.nextPid ∈ k2.ready) ∧
      (0 : Int) < Int.ofNat k.nextPid := by
  have htmem : t ∈ k.tasks := List.mem_of_find?_eq_some ht
  have hpos : 0 < k.nextPid := Nat.lt_of_le_of_lt (Nat.zero_le t.pid) (hb t htmem)
  have hupdb : ∀ u ∈ (updateTask k cur
      (fun u => { u with children := u.children ++ [k.nextPid] })).tasks,
      u.pid < k.nextPid :=
    updateTask_pid_bound k cur _ k.nextPid (fun u => rfl) hb
  have hfindn : (updateTask k cur
      (fun u => { u with children := u.children ++ [k.nextPid] })).tasks.find?
        (fun u => u.pid == k.nextPid) = none :=
    List.find?_eq_none.mpr (fun u hu => by
      simp only [beq_iff_eq]
      exact fun he => absurd he (Nat.ne_of_lt (hupdb u hu)))
  refine ⟨_, by rw [sys_fork, ht]; rfl, hpos, ?_, Int.ofNat_pos.mpr hpos⟩
  refine ⟨{ taskFork t k.nextPid cur with
            trapCx := setReg (taskFork t k.nextPid cur).trapCx 10 0 }, ?_,
    rfl, ?_, rfl, rfl, rfl, ?_⟩
  · rw [getTask, List.find?_append, hfindn]
    rw [Option.none_or]
    rw [@List.find?_cons_of_pos Task (fun u => u.pid == k.nextPid)
        { taskFork t k.nextPid cur with
          trapCx := setReg (taskFork t k.nextPid cur).trapCx 10 0 }
        [] (beq_self_eq_true k.nextPid)]
  · intro i hi
    have hne : (i == 10) = false := by simpa using hi
    simp [setReg, taskFork, hne, hi]
  · simp

/-- C9 witness: forking `task0` inside `kernel0` yields pid 5 for the parent
and a child observing 0 in `x[10]`. -/
theorem fork_behavior_witness :
    ∃ k2, sys_fork kernel0 0 = some (Int.ofNat 5, k2) ∧
      0 < 5 ∧
      (∃ child, getTask k2 5 = some child ∧
          child.trapCx.x 10 = 0 ∧
          (∀ i, i ≠ 10 → child.trapCx.x i = task0.trapCx.x i) ∧
          child.addressSpace = task0.addressSpace ∧
          child.parent = some 0 ∧
          child.status = TaskStatus.Ready ∧
          5 ∈ k2.ready) ∧
      (0 : Int) < Int.ofNat 5 :=
  fork_behavior kernel0 0 task0 rfl (by decide)

end RCore
